import Mathlib

/-!
Verification of the logalyzer ingestion-and-query engine.

Shallow embedding of the core functions of the repository:
* `src/db.rs` — `sanitize_filter`, `Filter::get_sql`, `FilterRule::get_sql`,
  `get_rows` (SQL construction), `consumer` (batch insertion);
* `src/logalang.rs` — `Filter::get_sql`, `FilterRule::get_sql` (identical copies
  of the ones in `db.rs`);
* `src/parse.rs` — `Parser::parse_line`, `parse_datetime`, `producer`, the
  byte-order-mark skip.

Rust strings are modelled as Lean `String` and byte indices as character
indices (the two agree on ASCII input, which is all the claims exercise).
Rust panics (`unwrap` on `None`/`Err`, out-of-range slicing) are modelled by
explicit `panicked` outcomes.  The single quote character is constructed as
`Char.ofNat 39` throughout.
-/

namespace Logalyzer

/-- The single-quote character. -/
def squote : Char := Char.ofNat 39

/-- The single-quote character as a one-character string. -/
def sq : String := String.singleton squote

/-- Model of `sanitize_filter` (src/db.rs lines 191-193): replace every
single-quote character by two single quotes.  Since the pattern is a single
character, the replacement acts character-by-character. -/
def sanitizeChars : List Char → List Char
  | [] => []
  | c :: rest =>
    if c = squote then squote :: squote :: sanitizeChars rest
    else c :: sanitizeChars rest

/-- Model of `sanitize_filter` on `String`. -/
def sanitize_filter (s : String) : String := String.mk (sanitizeChars s.data)

mutual

/-- Scans a character list and checks that every single-quote occurs as part of
an immediately adjacent pair: on meeting a quote the very next character must
also be a quote, which the pair-scan consumes; a lone quote fails the scan. -/
def quotesDoubled : List Char → Bool
  | [] => true
  | c :: rest => if c = squote then quotePair rest else quotesDoubled rest

/-- After an opening quote: the next character must be the closing quote of
the pair. -/
def quotePair : List Char → Bool
  | [] => false
  | c :: rest => c == squote && quotesDoubled rest

end

/-- The filter AST (src/logalang.rs lines 96-102; duplicated in src/db.rs). -/
inductive Filter where
  | And : Filter → Filter → Filter
  | Or : Filter → Filter → Filter
  | Not : Filter → Filter
  | ContainsString : String → Filter
deriving DecidableEq

/-- Model of `Filter::get_sql` (src/logalang.rs lines 104-129; identical copy
in src/db.rs lines 39-64). -/
def Filter.get_sql : Filter → String → String
  | Filter.And l r, c => l.get_sql c ++ " AND " ++ r.get_sql c
  | Filter.Or l r, c => l.get_sql c ++ " OR " ++ r.get_sql c
  | Filter.Not f, c => "NOT (" ++ f.get_sql c ++ ")"
  | Filter.ContainsString pat, c =>
      c ++ " LIKE " ++ sq ++ "%" ++ sanitize_filter pat ++ "%" ++ sq

/-- Model of `FilterRule` (src/logalang.rs lines 73-77; duplicated in
src/db.rs). -/
structure FilterRule where
  column_name : String
  rules : List Filter
deriving DecidableEq

/-- Model of `FilterRule::get_sql` (src/logalang.rs lines 79-94; identical
copy in src/db.rs lines 14-29). -/
def FilterRule.get_sql (f : FilterRule) : String :=
  if f.rules.isEmpty then ""
  else
    "WHERE " ++
      String.intercalate " AND " (f.rules.map (fun r => r.get_sql f.column_name))

/-- The SQL text built and executed by `get_rows` (src/db.rs lines 151-166):
a fixed SELECT over all columns, an optional LIKE fragment on the `message`
column built from the single optional filter string of the request, then
`LIMIT ?1 OFFSET ?2`. -/
def get_rows_sql (filter : Option String) : String :=
  let base := "SELECT id, time, level, context, thread, file, method, object, message FROM row "
  let withFilter :=
    match filter with
    | some f =>
        base ++ ("WHERE message LIKE " ++ sq ++ "%" ++ sanitize_filter f ++ "%" ++ sq ++ " ")
    | none => base
  withFilter ++ "LIMIT ?1 OFFSET ?2"

/-- The conjunction of the compiled per-column predicates of one rule (what
`FilterRule::get_sql` emits after `WHERE `). -/
def rule_predicate (r : FilterRule) : String :=
  String.intercalate " AND " (r.rules.map (fun f => f.get_sql r.column_name))

/-- Follows the spec text for the store read (spec sections 3, 4.2 and 4.4):
a read request carries zero or more FilterRules, the compiled predicate of
each rule applies to the target column that rule names, and rules are joined
with AND; an empty rule list produces no WHERE clause.  Written only to be
compared with `get_rows_sql`, which is what the code actually does. -/
def spec_read_sql (rules : List FilterRule) : String :=
  let base := "SELECT id, time, level, context, thread, file, method, object, message FROM row "
  let withFilter :=
    if rules.isEmpty then base
    else base ++ ("WHERE " ++ String.intercalate " AND " (rules.map rule_predicate) ++ " ")
  withFilter ++ "LIMIT ?1 OFFSET ?2"

/-- The stored table after bulk-inserting `n` rows: row identities `1..n`
(SQLite `INTEGER PRIMARY KEY` assigns 1,2,3,... on NULL insert) in rowid
scan order, which is the order a SELECT without ORDER BY walks. -/
def db_rows (n : Nat) : List Nat := List.range' 1 n

/-- Executing the `LIMIT ?1 OFFSET ?2` query of `get_rows` over a store of
`n` rows: skip `offset` rows, then return at most `limit` rows. -/
def select_window (n offset limit : Nat) : List Nat :=
  ((db_rows n).drop offset).take limit

/-- Rust `Iterator::position` / `str::find` on a character list: index of the
first element satisfying `p`. -/
def position {α : Type} (p : α → Bool) : List α → Option Nat
  | [] => none
  | x :: xs => if p x then some 0 else Option.map (fun n => n + 1) (position p xs)

/-- Rust `str::find(&str)`: offset of the first occurrence of `pat` as a
contiguous sublist (the empty pattern matches at offset 0). -/
def findSubIdx (pat : List Char) : List Char → Option Nat
  | [] => if List.isPrefixOf pat [] then some 0 else none
  | c :: rest =>
    if List.isPrefixOf pat (c :: rest) then some 0
    else Option.map (fun n => n + 1) (findSubIdx pat rest)

/-- Rust `str::split_once` with a one-character pattern: splits at the first
occurrence, dropping the separator. -/
def splitOnce : List Char → Char → Option (List Char × List Char)
  | [], _ => none
  | x :: rest, c =>
    if x = c then some ([], rest)
    else Option.map (fun p => (x :: p.1, p.2)) (splitOnce rest c)

/-- Decimal accumulation for Rust integer `FromStr`: fails on any non-digit. -/
def digitsValAux : List Char → Nat → Option Nat
  | [], acc => some acc
  | c :: rest, acc =>
    if c.isDigit then digitsValAux rest (acc * 10 + (c.toNat - 48)) else none

/-- Rust `str::parse::<u32>`: optional leading `+`, at least one digit, all
digits, value within `u32` range. -/
def parseU32 (s : List Char) : Option Nat :=
  let body := match s with
    | '+' :: rest => rest
    | other => other
  match body with
  | [] => none
  | _ =>
    match digitsValAux body 0 with
    | some v => if v < 4294967296 then some v else none
    | none => none

/-- Rust `str::parse::<i32>`: optional sign, at least one digit, value within
`i32` range. -/
def parseI32 (s : List Char) : Option Int :=
  match s with
  | '-' :: rest =>
    match rest with
    | [] => none
    | _ =>
      match digitsValAux rest 0 with
      | some v => if v ≤ 2147483648 then some (-(Int.ofNat v)) else none
      | none => none
  | _ =>
    let body := match s with
      | '+' :: rest => rest
      | other => other
    match body with
    | [] => none
    | _ =>
      match digitsValAux body 0 with
      | some v => if v ≤ 2147483647 then some (Int.ofNat v) else none
      | none => none

/-- Proleptic-Gregorian leap year (chrono). -/
def isLeapYear (y : Int) : Bool :=
  y % 4 == 0 && (y % 100 != 0 || y % 400 == 0)

/-- Days in a month (chrono `NaiveDate::from_ymd_opt` validity). -/
def daysInMonth (y : Int) (m : Nat) : Nat :=
  if m = 2 then (if isLeapYear y then 29 else 28)
  else if m = 4 ∨ m = 6 ∨ m = 9 ∨ m = 11 then 30
  else 31

/-- Days from the Unix epoch to civil date `y-m-d` (the classic
days-from-civil formula, which is what the chrono calendar arithmetic
computes). -/
def epochDays (y : Int) (m d : Nat) : Int :=
  let yAdj : Int := if m ≤ 2 then y - 1 else y
  let era : Int := Int.fdiv yAdj 400
  let yoe : Int := yAdj - era * 400
  let mp : Int := (Int.ofNat m + 9) % 12
  let doy : Int := (153 * mp + 2) / 5 + Int.ofNat d - 1
  let doe : Int := yoe * 365 + yoe / 4 - yoe / 100 + doy
  era * 146097 + doe - 719468

/-- The six `split_once` steps of `parse_datetime` (src/parse.rs lines
278-283) over `Y-M-D H:M:S,ms`: the seven raw fields, or `none` as soon as a
separator is missing. -/
def timeFields (date : String) :
    Option (List Char × List Char × List Char × List Char × List Char × List Char × List Char) :=
  match splitOnce date.data '-' with
  | none => none
  | some (ys, r1) =>
  match splitOnce r1 '-' with
  | none => none
  | some (ms, r2) =>
  match splitOnce r2 ' ' with
  | none => none
  | some (ds, r3) =>
  match splitOnce r3 ':' with
  | none => none
  | some (hs, r4) =>
  match splitOnce r4 ':' with
  | none => none
  | some (mins, r5) =>
  match splitOnce r5 ',' with
  | none => none
  | some (ss, mss) => some (ys, ms, ds, hs, mins, ss, mss)

/-- Model of `parse_datetime` (src/parse.rs lines 277-297): split into
fields, numeric
parses, chrono validity checks (`from_ymd_opt` / `and_hms_milli_opt`, the
latter admitting leap-second milliseconds up to 1999), then epoch
milliseconds. -/
def parse_datetime (date : String) : Option Int :=
  match timeFields date with
  | none => none
  | some (ys, ms, ds, hs, mins, ss, mss) =>
  match parseI32 ys, parseU32 ms, parseU32 ds with
  | some y, some m, some d =>
    (match parseU32 hs, parseU32 mins, parseU32 ss, parseU32 mss with
     | some h, some mi, some s, some msec =>
       if 1 ≤ m ∧ m ≤ 12 ∧ 1 ≤ d ∧ d ≤ daysInMonth y m ∧ h < 24 ∧ mi < 60 ∧ s < 60 ∧ msec < 2000 then
         some (epochDays y m d * 86400000 + (Int.ofNat (h * 3600 + mi * 60 + s)) * 1000 + Int.ofNat msec)
       else none
     | _, _, _, _ => none)
  | _, _, _ => none

/-- Model of `ParserInstruction` (src/parse.rs lines 121-130).  `Skip`
carries a `u16`
in the source; the claims only need its numeric value. -/
inductive ParserInstruction where
  | EmitDate : ParserInstruction
  | EmitString : ParserInstruction
  | EmitEnumeration : List String → ParserInstruction
  | EmitRemainder : ParserInstruction
  | Begin : ParserInstruction
  | Skip : Nat → ParserInstruction
  | SkipUntilChar : Char → ParserInstruction
  | SkipUntilString : String → ParserInstruction

/-- Model of `RowValue` (src/parse.rs lines 58-63). -/
inductive RowValue where
  | String : String → RowValue
  | Date : Int → RowValue
  | Integer : Int → RowValue
deriving DecidableEq

/-- The three value shapes a `RowValue` can take. -/
inductive ValueKind where
  | str : ValueKind
  | date : ValueKind
  | int : ValueKind
deriving DecidableEq

/-- The shape of one value. -/
def RowValue.kind : RowValue → ValueKind
  | RowValue.String _ => ValueKind.str
  | RowValue.Date _ => ValueKind.date
  | RowValue.Integer _ => ValueKind.int

/-- The value shape an instruction emits (`none` for non-emitting
instructions). -/
def emitKind : ParserInstruction → Option ValueKind
  | ParserInstruction.EmitDate => some ValueKind.date
  | ParserInstruction.EmitString => some ValueKind.str
  | ParserInstruction.EmitEnumeration _ => some ValueKind.int
  | ParserInstruction.EmitRemainder => some ValueKind.str
  | _ => none

/-- Outcome of `Parser::parse_line`: `Ok(values)`, `Err(msg)` (only produced
by the `?` on the enumeration lookup), or a Rust panic (an `unwrap` on
`None`, or an out-of-range string slice). -/
inductive ParseOutcome where
  | ok : List RowValue → ParseOutcome
  | err : String → ParseOutcome
  | panicked : ParseOutcome
deriving DecidableEq

/-- Rust slice `&line[b..i]`: defined when `b ≤ i ≤ line.len()`, otherwise the
slice panics. -/
def sliceOpt (data : List Char) (b i : Nat) : Option (List Char) :=
  if b ≤ i ∧ i ≤ data.length then some ((data.drop b).take (i - b)) else none

/-- The instruction loop of `Parser::parse_line` (src/parse.rs lines 78-118),
with state `index` (scan cursor), `beg` (`begin_index`) and the values
accumulated so far. -/
def parseGo : List ParserInstruction → List Char → Nat → Nat → List RowValue → ParseOutcome
  | [], _, _, _, values => ParseOutcome.ok values
  | ParserInstruction.EmitDate :: rest, data, index, beg, values =>
    (match sliceOpt data beg index with
     | some s =>
       match parse_datetime (String.mk s) with
       | some d => parseGo rest data index beg (values ++ [RowValue.Date d])
       | none => ParseOutcome.panicked
     | none => ParseOutcome.panicked)
  | ParserInstruction.EmitString :: rest, data, index, beg, values =>
    (match sliceOpt data beg index with
     | some s => parseGo rest data index beg (values ++ [RowValue.String (String.mk s)])
     | none => ParseOutcome.panicked)
  | ParserInstruction.EmitEnumeration enums :: rest, data, index, beg, values =>
    (match sliceOpt data beg index with
     | some s =>
       match position (fun e => e == String.mk s) enums with
       | some idx => parseGo rest data index beg (values ++ [RowValue.Integer (Int.ofNat idx)])
       | none => ParseOutcome.err ("Unknown enum " ++ String.mk s)
     | none => ParseOutcome.panicked)
  | ParserInstruction.EmitRemainder :: rest, data, index, beg, values =>
    if beg ≤ data.length then
      parseGo rest data index beg (values ++ [RowValue.String (String.mk (data.drop beg))])
    else ParseOutcome.panicked
  | ParserInstruction.Begin :: rest, data, index, _, values =>
    parseGo rest data index index values
  | ParserInstruction.Skip n :: rest, data, index, beg, values =>
    parseGo rest data (index + n) beg values
  | ParserInstruction.SkipUntilChar c :: rest, data, index, beg, values =>
    if index ≤ data.length then
      match position (fun x => x == c) (data.drop index) with
      | some off => parseGo rest data (index + off) beg values
      | none => ParseOutcome.panicked
    else ParseOutcome.panicked
  | ParserInstruction.SkipUntilString pat :: rest, data, index, beg, values =>
    if index ≤ data.length then
      match findSubIdx pat.data (data.drop index) with
      | some off => parseGo rest data (index + off) beg values
      | none => ParseOutcome.panicked
    else ParseOutcome.panicked

/-- Model of `Parser::parse_line` (src/parse.rs lines 78-118): both cursors
start at 0
and the instruction list runs left to right. -/
def parse_line (instrs : List ParserInstruction) (line : String) : ParseOutcome :=
  parseGo instrs line.data 0 0 []

/-- A small instruction list used for concrete pipeline runs: one field up to
the first colon. -/
def demo_instructions : List ParserInstruction :=
  [ParserInstruction.Begin, ParserInstruction.SkipUntilChar ':', ParserInstruction.EmitString]

/-- Result of running the producer loop (src/parse.rs lines 244-275) to the
end of input: the batches sent over the channel, and the batch still pending
in the local `batch` vector when the loop ends (the code sends it nowhere).
`panicked` models the `unwrap` on a failed `parse_line`. -/
inductive ProdResult where
  | finished : List (List (List RowValue)) → List (List RowValue) → ProdResult
  | panicked : ProdResult
deriving DecidableEq

/-- The line loop of `producer` (src/parse.rs lines 258-272): parse each line
(`unwrap` panics on failure), push the row into the batch, and send the batch
once it reaches `batch_size`.  Nothing is sent after the loop. -/
def producer_run (instrs : List ParserInstruction) (batch_size : Nat) :
    List String → List (List RowValue) → List (List (List RowValue)) → ProdResult
  | [], batch, sent => ProdResult.finished sent batch
  | line :: rest, batch, sent =>
    match parse_line instrs line with
    | ParseOutcome.ok values =>
      let batch2 := batch ++ [values]
      if batch_size ≤ batch2.length then
        producer_run instrs batch_size rest [] (sent ++ [batch2])
      else
        producer_run instrs batch_size rest batch2 sent
    | _ => ProdResult.panicked

/-- Model of `producer` on an already-read list of lines (file input and the channel are
modelled away; the channel delivers exactly the sent batches, in order). -/
def run_producer (instrs : List ParserInstruction) (lines : List String)
    (batch_size : Nat) : ProdResult :=
  producer_run instrs batch_size lines [] []

/-- Model of `consumer` (src/db.rs lines 195-254): executes one INSERT per received
batch; the number of stored rows is the total size of the received batches. -/
def consumer_inserted (batches : List (List (List RowValue))) : Nat :=
  (batches.map List.length).sum

/-- Rows stored by the whole pipeline on a given input: `none` when the
producer panics, otherwise the rows of every batch that was actually sent. -/
def stored_row_count (instrs : List ParserInstruction) (lines : List String)
    (batch_size : Nat) : Option Nat :=
  match run_producer instrs lines batch_size with
  | ProdResult.finished sent _ => some (consumer_inserted sent)
  | ProdResult.panicked => none

/-- The BOM variants detected by the `unicode_bom` crate (external
dependency of `getbom`, src/parse.rs lines 299-302). -/
inductive Bom where
  | null : Bom
  | bocu1 : Bom
  | gb18030 : Bom
  | scsu : Bom
  | utfEbcdic : Bom
  | utf1 : Bom
  | utf7 : Bom
  | utf8 : Bom
  | utf16be : Bom
  | utf16le : Bom
  | utf32be : Bom
  | utf32le : Bom
deriving DecidableEq

/-- Actual byte length of each BOM on disk, per the `unicode_bom` crate. -/
def Bom.byteLen : Bom → Nat
  | Bom.null => 0
  | Bom.bocu1 => 3
  | Bom.gb18030 => 4
  | Bom.scsu => 3
  | Bom.utfEbcdic => 4
  | Bom.utf1 => 3
  | Bom.utf7 => 4
  | Bom.utf8 => 3
  | Bom.utf16be => 2
  | Bom.utf16le => 2
  | Bom.utf32be => 4
  | Bom.utf32le => 4

/-- Bytes the producer consumes before reading lines (src/parse.rs lines
244-251): if any BOM was detected it `read_exact`s a fixed 3-byte buffer,
otherwise nothing. -/
def producer_bom_skip (bom : Bom) : Nat :=
  if bom = Bom.null then 0 else 3

theorem quotesDoubled_sanitizeChars (l : List Char) :
    quotesDoubled (sanitizeChars l) = true := by
  induction l with
  | nil => rfl
  | cons c rest ih =>
    by_cases hc : c = squote
    · subst hc
      simp [sanitizeChars, quotesDoubled, quotePair, ih]
    · simp [sanitizeChars, quotesDoubled, hc, ih]

theorem position_eq_none {α : Type} {p : α → Bool} {l : List α}
    (h : ∀ x ∈ l, p x = false) : position p l = none := by
  induction l with
  | nil => rfl
  | cons x xs ih =>
    simp only [position, h x (by simp)]
    simp [ih (fun y hy => h y (by simp [hy]))]

theorem position_eq_some_of_least {l : List String} {v : String} {i : Nat}
    (hi : l[i]? = some v) (hmin : ∀ j, j < i → l[j]? ≠ some v) :
    position (fun e => e == v) l = some i := by
  induction l generalizing i with
  | nil => simp at hi
  | cons x xs ih =>
    cases i with
    | zero =>
      simp only [List.getElem?_cons_zero, Option.some_inj] at hi
      simp [position, hi]
    | succ k =>
      have hx : ¬(x = v) := by
        intro hxv
        exact hmin 0 (Nat.succ_pos k) (by simp [hxv])
      simp only [List.getElem?_cons_succ] at hi
      have hrec := ih hi (fun j hj => by
        have := hmin (j + 1) (Nat.succ_lt_succ hj)
        simpa using this)
      simp [position, hx, hrec]

theorem parseGo_shape (instrs : List ParserInstruction) (data : List Char)
    (index beg : Nat) (acc vs : List RowValue)
    (h : parseGo instrs data index beg acc = ParseOutcome.ok vs) :
    vs.map RowValue.kind = acc.map RowValue.kind ++ instrs.filterMap emitKind := by
  induction instrs generalizing index beg acc with
  | nil =>
    simp only [parseGo, ParseOutcome.ok.injEq] at h
    subst h
    simp
  | cons i rest ih =>
    cases i with
    | EmitDate =>
      simp only [parseGo] at h
      split at h
      · split at h
        · have := ih _ _ _ h
          simpa [emitKind, List.filterMap_cons] using this
        · simp at h
      · simp at h
    | EmitString =>
      simp only [parseGo] at h
      split at h
      · have := ih _ _ _ h
        simpa [emitKind, List.filterMap_cons] using this
      · simp at h
    | EmitEnumeration enums =>
      simp only [parseGo] at h
      split at h
      · split at h
        · have := ih _ _ _ h
          simpa [emitKind, List.filterMap_cons] using this
        · simp at h
      · simp at h
    | EmitRemainder =>
      simp only [parseGo] at h
      split at h
      · have := ih _ _ _ h
        simpa [emitKind, List.filterMap_cons] using this
      · simp at h
    | Begin =>
      simp only [parseGo] at h
      have := ih _ _ _ h
      simpa [emitKind, List.filterMap_cons] using this
    | Skip n =>
      simp only [parseGo] at h
      have := ih _ _ _ h
      simpa [emitKind, List.filterMap_cons] using this
    | SkipUntilChar c =>
      simp only [parseGo] at h
      split at h
      · split at h
        · have := ih _ _ _ h
          simpa [emitKind, List.filterMap_cons] using this
        · simp at h
      · simp at h
    | SkipUntilString pat =>
      simp only [parseGo] at h
      split at h
      · split at h
        · have := ih _ _ _ h
          simpa [emitKind, List.filterMap_cons] using this
        · simp at h
      · simp at h

theorem parseGo_err_unknown_enum (instrs : List ParserInstruction)
    (data : List Char) (index beg : Nat) (acc : List RowValue) (msg : String)
    (h : parseGo instrs data index beg acc = ParseOutcome.err msg) :
    ∃ v : String, msg = "Unknown enum " ++ v := by
  induction instrs generalizing index beg acc with
  | nil => simp [parseGo] at h
  | cons i rest ih =>
    cases i with
    | EmitDate =>
      simp only [parseGo] at h
      split at h
      · split at h
        · exact ih _ _ _ h
        · simp at h
      · simp at h
    | EmitString =>
      simp only [parseGo] at h
      split at h
      · exact ih _ _ _ h
      · simp at h
    | EmitEnumeration enums =>
      simp only [parseGo] at h
      split at h
      · split at h
        · exact ih _ _ _ h
        · simp only [ParseOutcome.err.injEq] at h
          exact ⟨_, h.symm⟩
      · simp at h
    | EmitRemainder =>
      simp only [parseGo] at h
      split at h
      · exact ih _ _ _ h
      · simp at h
    | Begin =>
      simp only [parseGo] at h
      exact ih _ _ _ h
    | Skip n =>
      simp only [parseGo] at h
      exact ih _ _ _ h
    | SkipUntilChar c =>
      simp only [parseGo] at h
      split at h
      · split at h
        · exact ih _ _ _ h
        · simp at h
      · simp at h
    | SkipUntilString pat =>
      simp only [parseGo] at h
      split at h
      · split at h
        · exact ih _ _ _ h
        · simp at h
      · simp at h

/-- Claim C1: for every filter literal `s` and column `c`, the compiled SQL
for `ContainsString(s)` is exactly the column name, one space, LIKE, and the
percent-wrapped quoted pattern `e`, where `e` is `s` with each
single quote doubled; every quote originating in the literal appears doubled
and never alone; the example of the spec (a literal containing one quote, on
column `message`) compiles with the quote doubled. -/
theorem c1_contains_string_escaping :
    (∀ (s c : String), Filter.get_sql (Filter.ContainsString s) c =
      c ++ " LIKE " ++ sq ++ "%" ++ sanitize_filter s ++ "%" ++ sq) ∧
    (∀ s : String, quotesDoubled (sanitize_filter s).data = true) ∧
    Filter.get_sql (Filter.ContainsString ("a" ++ sq ++ "b")) "message" =
      "message LIKE " ++ sq ++ "%a" ++ sq ++ sq ++ "b%" ++ sq := by
  refine ⟨fun s c => rfl, fun s => ?_, by decide⟩
  exact quotesDoubled_sanitizeChars s.data

/-- Claim C7: filter compilation is structurally faithful: `Not` compiles to
`NOT (...)`, `And`/`Or` to infix `AND`/`OR` of the compiled operands, an
empty rule list compiles to the empty string, and a non-empty rule list to a
`WHERE` clause whose sub-fragments are joined with ` AND `; including the
concrete examples of the spec. -/
theorem c7_structural_compilation :
    (∀ (e : Filter) (c : String),
      (Filter.Not e).get_sql c = "NOT (" ++ e.get_sql c ++ ")") ∧
    (∀ (l r : Filter) (c : String),
      (Filter.And l r).get_sql c = l.get_sql c ++ " AND " ++ r.get_sql c) ∧
    (∀ (l r : Filter) (c : String),
      (Filter.Or l r).get_sql c = l.get_sql c ++ " OR " ++ r.get_sql c) ∧
    (∀ c : String, (FilterRule.mk c []).get_sql = "") ∧
    (∀ (c : String) (r : Filter) (rs : List Filter),
      (FilterRule.mk c (r :: rs)).get_sql =
        "WHERE " ++ String.intercalate " AND " ((r :: rs).map (fun f => f.get_sql c))) ∧
    (Filter.Not (Filter.ContainsString "x")).get_sql "col" =
      "NOT (col LIKE " ++ sq ++ "%x%" ++ sq ++ ")" ∧
    (Filter.And (Filter.ContainsString "a") (Filter.ContainsString "b")).get_sql "col" =
      "col LIKE " ++ sq ++ "%a%" ++ sq ++ " AND col LIKE " ++ sq ++ "%b%" ++ sq :=
  ⟨fun _ _ => rfl, fun _ _ _ => rfl, fun _ _ _ => rfl, fun _ => rfl,
   fun _ _ _ => rfl, by decide, by decide⟩

set_option maxRecDepth 20000 in
/-- Claim C8 (counterexample): the spec-side per-column compilation of a rule
targeting column `context` produces a `context LIKE` predicate, but the SQL
the store read actually executes carries at most one filter string and always
applies it to the `message` column; the executed SQL for filter string `"a"`
contains no `context LIKE` predicate and differs from the spec-side SQL. -/
theorem c8_per_column_counterexample :
    spec_read_sql [FilterRule.mk "context" [Filter.ContainsString "a"]] =
      "SELECT id, time, level, context, thread, file, method, object, message FROM row WHERE context LIKE " ++
        sq ++ "%a%" ++ sq ++ " LIMIT ?1 OFFSET ?2" ∧
    get_rows_sql (some "a") =
      "SELECT id, time, level, context, thread, file, method, object, message FROM row WHERE message LIKE " ++
        sq ++ "%a%" ++ sq ++ " LIMIT ?1 OFFSET ?2" ∧
    get_rows_sql none =
      "SELECT id, time, level, context, thread, file, method, object, message FROM row LIMIT ?1 OFFSET ?2" ∧
    get_rows_sql (some "a") ≠
      spec_read_sql [FilterRule.mk "context" [Filter.ContainsString "a"]] ∧
    findSubIdx ("context LIKE").data (get_rows_sql (some "a")).data = none := by
  refine ⟨by decide, by decide, by decide, by decide, by decide⟩

/-- Claim C8 (amended): a store read request carries one optional filter
string, not a list of FilterRules; when the string is present the executed
SQL applies a single sanitized LIKE predicate to the fixed `message` column,
and when absent there is no WHERE clause. -/
theorem c8_single_message_filter :
    (∀ f : String, get_rows_sql (some f) =
      "SELECT id, time, level, context, thread, file, method, object, message FROM row " ++
        ("WHERE message LIKE " ++ sq ++ "%" ++ sanitize_filter f ++ "%" ++ sq ++ " ") ++
        "LIMIT ?1 OFFSET ?2") ∧
    get_rows_sql none =
      "SELECT id, time, level, context, thread, file, method, object, message FROM row LIMIT ?1 OFFSET ?2" :=
  ⟨fun _ => rfl, by decide⟩

/-- Claim C10: whenever any byte-order mark is detected, the producer skips a
fixed 3 bytes before reading lines, regardless of the actual
byte length (so the skip is correct only for the 3-byte UTF-8 BOM: e.g. the
UTF-16-LE BOM is 2 bytes long and the UTF-32-LE BOM is 4, yet both are
"skipped" by reading 3 bytes). -/
theorem c10_bom_skip_fixed_three :
    (∀ b : Bom, b ≠ Bom.null → producer_bom_skip b = 3) ∧
    producer_bom_skip Bom.utf8 = 3 ∧ Bom.byteLen Bom.utf8 = 3 ∧
    producer_bom_skip Bom.utf16le = 3 ∧ Bom.byteLen Bom.utf16le = 2 ∧
    producer_bom_skip Bom.utf32le = 3 ∧ Bom.byteLen Bom.utf32le = 4 ∧
    producer_bom_skip Bom.null = 0 := by
  refine ⟨fun b hb => ?_, by decide, by decide, by decide, by decide, by decide, by decide, by decide⟩
  simp [producer_bom_skip, hb]

/-- Claim C10 (witness): instantiating the universal part at the UTF-16-LE
BOM. -/
theorem c10_bom_skip_fixed_three_witness :
    Bom.utf16le ≠ Bom.null ∧ producer_bom_skip Bom.utf16le = 3 :=
  ⟨by decide, c10_bom_skip_fixed_three.1 Bom.utf16le (by decide)⟩

/-- Claim C2 (code-bug evidence): the producer sends only full batches over
the channel and nothing is flushed when the line loop ends, so the rows of
the final partial batch are never stored: a 1-line input with batch size 64
stores 0 rows, and a 65-line input stores only 64 (the trivial instruction
list parses every line to an empty row). -/
theorem c2_partial_batch_dropped :
    stored_row_count [] ["x"] 64 = some 0 ∧
    run_producer [] ["x"] 64 = ProdResult.finished [] [[]] ∧
    stored_row_count [] (List.replicate 65 "x") 64 = some 64 := by
  refine ⟨by decide, by decide, by decide⟩

/-- Claim C6: whenever `parse_line` succeeds, the returned value sequence has
exactly one value per Emit instruction, in instruction order, and each
variant of each value (String/Date/Integer) is the one determined by the
kind of that Emit instruction — so a fixed instruction list yields a fixed
output shape
on every successful line. -/
theorem c6_fixed_shape (instrs : List ParserInstruction) (line : String)
    (vs : List RowValue) (h : parse_line instrs line = ParseOutcome.ok vs) :
    vs.map RowValue.kind = instrs.filterMap emitKind := by
  have := parseGo_shape instrs line.data 0 0 [] vs h
  simpa using this

/-- Claim C6 (witness): the demo instruction list on a parseable line. -/
theorem c6_fixed_shape_witness :
    parse_line demo_instructions "a:" = ParseOutcome.ok [RowValue.String "a"] ∧
    [RowValue.String "a"].map RowValue.kind = demo_instructions.filterMap emitKind :=
  ⟨by decide, c6_fixed_shape demo_instructions "a:" [RowValue.String "a"] (by decide)⟩

set_option maxRecDepth 20000 in
/-- Claim C9 (counterexample): on a 1000-row store, a request with offset 701
(which exceeds `row_count - limit = 700`) returns only the 299 remaining
rows, not the final 300 rows the claim promises. -/
theorem c9_tail_window_counterexample :
    (select_window 1000 701 300).length = 299 ∧
    select_window 1000 701 300 ≠ (db_rows 1000).drop 700 := by
  refine ⟨by decide, by decide⟩

set_option maxRecDepth 20000 in
/-- Claim C9 (amended): requesting `(offset = 0, limit = 300)` on a 1000-row
store returns exactly the 300 rows with identities 1..300; a request whose
offset is at least `row_count - limit` returns all `row_count - offset`
remaining trailing rows (fewer than `limit` when the offset exceeds
`row_count - limit`) without error. -/
theorem c9_windowed_read (o : Nat) (h : 1000 - 300 ≤ o) :
    select_window 1000 0 300 = db_rows 300 ∧
    select_window 1000 o 300 = (db_rows 1000).drop o := by
  constructor
  · decide
  · unfold select_window
    apply List.take_of_length_le
    have hlen : (db_rows 1000).length = 1000 := List.length_range' ..
    rw [List.length_drop, hlen]
    omega

/-- Claim C9 (witness): instantiating the amended read at offset 701. -/
theorem c9_windowed_read_witness :
    (1000 - 300 ≤ 701) ∧
    (select_window 1000 0 300 = db_rows 300 ∧
      select_window 1000 701 300 = (db_rows 1000).drop 701) :=
  ⟨by decide, c9_windowed_read 701 (by decide)⟩

/-- Claim C3 (counterexample): a parseable line (`"a:"`) followed by an
unparseable line (`"b"`, whose delimiter search fails) makes the producer
panic on the unwrapped parse result; no merged continuation row with last
field `"ab"` is ever produced. -/
theorem c3_continuation_counterexample :
    run_producer demo_instructions ["a:", "b"] 2 = ProdResult.panicked ∧
    run_producer demo_instructions ["a:", "b"] 2 ≠
      ProdResult.finished [] [[RowValue.String "ab"]] := by
  refine ⟨by decide, by decide⟩

/-- Claim C3 (amended): when `parse_line` fails on a physical line, ingestion
aborts rather than continuing: the producer unwraps every parse result, so a
parseable line followed by a line on which `parse_line` does not succeed
makes the whole producer run panic; no row is appended to and no
continuation row is emitted. -/
theorem c3_parse_failure_aborts (instrs : List ParserInstruction) (B : Nat)
    (l1 l2 : String) (v : List RowValue)
    (h1 : parse_line instrs l1 = ParseOutcome.ok v)
    (h2 : ∀ w, parse_line instrs l2 ≠ ParseOutcome.ok w) :
    run_producer instrs [l1, l2] B = ProdResult.panicked := by
  cases hp : parse_line instrs l2 with
  | ok w => exact absurd hp (h2 w)
  | err m =>
    simp only [run_producer, producer_run, h1, hp]
    simp
  | panicked =>
    simp only [run_producer, producer_run, h1, hp]
    simp

/-- Claim C3 (witness): the amended abort behaviour at the concrete two-line
input. -/
theorem c3_parse_failure_aborts_witness :
    run_producer demo_instructions ["a:", "b"] 2 = ProdResult.panicked := by
  refine c3_parse_failure_aborts demo_instructions 2 "a:" "b"
    [RowValue.String "a"] (by decide) ?_
  intro w hw
  have hb : parse_line demo_instructions "b" = ParseOutcome.panicked := by decide
  rw [hb] at hw
  exact ParseOutcome.noConfusion hw

/-- Claim C4 (counterexample): a `Skip(5)` that moves the cursor past the end
of `"abc"` succeeds with `Ok []` instead of yielding an OutOfBounds error,
and a `SkipUntilChar` whose delimiter is absent panics (unwrap on `None`)
instead of yielding a DelimiterNotFound error. -/
theorem c4_error_contract_counterexample :
    parse_line [ParserInstruction.Skip 5] "abc" = ParseOutcome.ok [] ∧
    parse_line [ParserInstruction.SkipUntilChar 'x'] "abc" = ParseOutcome.panicked := by
  refine ⟨by decide, by decide⟩

/-- Claim C4 (amended): `parse_line` returns `Err` only for unknown
enumeration values (every error message it can return is an unknown-enum
message); a `Skip(n)` past the end of the line is not checked at all — by
itself it succeeds with `Ok []`, and a later find or slice on the
out-of-range index panics; a `SkipUntilChar` or `SkipUntilString` whose
delimiter has no occurrence at or after the index panics via unwrap; and an
`EmitDate` whose slice the datetime grammar rejects panics via unwrap. -/
theorem c4_failure_modes :
    (∀ (instrs : List ParserInstruction) (line : String) (msg : String),
      parse_line instrs line = ParseOutcome.err msg →
      ∃ v : String, msg = "Unknown enum " ++ v) ∧
    (∀ (n : Nat) (line : String), line.length < n →
      parse_line [ParserInstruction.Skip n] line = ParseOutcome.ok []) ∧
    (∀ (n : Nat) (c : Char) (line : String), line.length < n →
      parse_line [ParserInstruction.Skip n, ParserInstruction.SkipUntilChar c]
        line = ParseOutcome.panicked) ∧
    (∀ (n : Nat) (line : String), line.length < n →
      parse_line [ParserInstruction.Begin, ParserInstruction.Skip n,
        ParserInstruction.EmitString] line = ParseOutcome.panicked) ∧
    (∀ (c : Char) (line : String),
      position (fun x => x == c) line.data = none →
      parse_line [ParserInstruction.SkipUntilChar c] line = ParseOutcome.panicked) ∧
    (∀ (pat : String) (line : String),
      findSubIdx pat.data line.data = none →
      parse_line [ParserInstruction.SkipUntilString pat] line = ParseOutcome.panicked) ∧
    (∀ (n : Nat) (line : String), n ≤ line.length →
      parse_datetime (String.mk (line.data.take n)) = none →
      parse_line [ParserInstruction.Begin, ParserInstruction.Skip n,
        ParserInstruction.EmitDate] line = ParseOutcome.panicked) := by
  refine ⟨fun instrs line msg h => parseGo_err_unknown_enum instrs line.data 0 0 [] msg h,
    fun n line _ => rfl, fun n c line h => ?_, fun n line h => ?_,
    fun c line h => ?_, fun pat line h => ?_, fun n line hn hd => ?_⟩
  · have hdl : line.data.length = line.length := rfl
    have hnot : ¬(0 + n ≤ line.data.length) := by
      rw [hdl]
      omega
    simp only [parse_line, parseGo]
    rw [if_neg hnot]
  · have hdl : line.data.length = line.length := rfl
    have hnot : ¬(0 ≤ 0 + n ∧ 0 + n ≤ line.data.length) := by
      rw [hdl]
      omega
    have hs : sliceOpt line.data 0 (0 + n) = none := by
      unfold sliceOpt
      exact if_neg hnot
    simp only [parse_line, parseGo, hs]
  · simp only [parse_line, parseGo]
    rw [if_pos (Nat.zero_le _), List.drop_zero, h]
  · simp only [parse_line, parseGo]
    rw [if_pos (Nat.zero_le _), List.drop_zero, h]
  · have hs : sliceOpt line.data 0 (0 + n) = some (line.data.take n) := by
      simp [sliceOpt, hn]
    simp only [parse_line, parseGo, hs, hd]

/-- Claim C4 (witness): the amended failure modes at concrete inputs: a
concrete unknown-enum error; Skip(5) on a 3-character line succeeding alone
but panicking when a find or an emitted slice later uses the cursor; both
SkipUntil forms panicking on an absent delimiter; and EmitDate panicking on
a 1-character slice the datetime grammar rejects. -/
theorem c4_failure_modes_witness :
    (∃ v : String, ("Unknown enum B" : String) = "Unknown enum " ++ v) ∧
    (("abc" : String).length < 5 ∧
      parse_line [ParserInstruction.Skip 5] "abc" = ParseOutcome.ok []) ∧
    (("abc" : String).length < 5 ∧
      parse_line [ParserInstruction.Skip 5, ParserInstruction.SkipUntilChar 'x']
        "abc" = ParseOutcome.panicked) ∧
    (("abc" : String).length < 5 ∧
      parse_line [ParserInstruction.Begin, ParserInstruction.Skip 5,
        ParserInstruction.EmitString] "abc" = ParseOutcome.panicked) ∧
    (position (fun x => x == 'x') ("abc" : String).data = none ∧
      parse_line [ParserInstruction.SkipUntilChar 'x'] "abc" = ParseOutcome.panicked) ∧
    (findSubIdx ("xy" : String).data ("abc" : String).data = none ∧
      parse_line [ParserInstruction.SkipUntilString "xy"] "abc" = ParseOutcome.panicked) ∧
    (1 ≤ ("zz" : String).length ∧
      parse_datetime (String.mk (("zz" : String).data.take 1)) = none ∧
      parse_line [ParserInstruction.Begin, ParserInstruction.Skip 1,
        ParserInstruction.EmitDate] "zz" = ParseOutcome.panicked) :=
  ⟨c4_failure_modes.1 [ParserInstruction.Begin, ParserInstruction.Skip 1,
      ParserInstruction.EmitEnumeration ["A"]] "B" "Unknown enum B" (by decide),
   ⟨by decide, c4_failure_modes.2.1 5 "abc" (by decide)⟩,
   ⟨by decide, c4_failure_modes.2.2.1 5 'x' "abc" (by decide)⟩,
   ⟨by decide, c4_failure_modes.2.2.2.1 5 "abc" (by decide)⟩,
   ⟨by decide, c4_failure_modes.2.2.2.2.1 'x' "abc" (by decide)⟩,
   ⟨by decide, c4_failure_modes.2.2.2.2.2.1 "xy" "abc" (by decide)⟩,
   ⟨by decide, by decide,
     c4_failure_modes.2.2.2.2.2.2 1 "zz" (by decide) (by decide)⟩⟩

/-- Claim C5 (counterexample): with duplicated variants `["A", "A"]` the
parsed slice `"A"` is byte-for-byte equal to the variant at index 1, yet
`parse_line` pushes `Integer 0` (the first matching index), so "slice equal
to the variant at index i implies `Integer(i)`" is false at `i = 1`. -/
theorem c5_enum_counterexample :
    (["A", "A"] : List String)[1]? = some "A" ∧
    parse_line [ParserInstruction.Begin, ParserInstruction.Skip 1,
      ParserInstruction.EmitEnumeration ["A", "A"]] "A" =
      ParseOutcome.ok [RowValue.Integer 0] ∧
    ParseOutcome.ok [RowValue.Integer 0] ≠ ParseOutcome.ok [RowValue.Integer 1] := by
  refine ⟨by decide, by decide, by decide⟩

/-- Claim C5 (amended): for `EmitEnumeration(variants)` over the slice
`[mark, index)`, `parse_line` pushes `Integer(i)` for the LEAST index `i`
whose variant is byte-for-byte equal to the slice; when no variant equals
the slice it fails with the unknown-enum error. -/
theorem c5_enumeration_lookup :
    (∀ (enums : List String) (line : String) (n i : Nat),
      n ≤ line.length →
      enums[i]? = some (String.mk (line.data.take n)) →
      (∀ j, j < i → enums[j]? ≠ some (String.mk (line.data.take n))) →
      parse_line [ParserInstruction.Begin, ParserInstruction.Skip n,
        ParserInstruction.EmitEnumeration enums] line =
        ParseOutcome.ok [RowValue.Integer (Int.ofNat i)]) ∧
    (∀ (enums : List String) (line : String) (n : Nat),
      n ≤ line.length →
      (∀ v ∈ enums, v ≠ String.mk (line.data.take n)) →
      parse_line [ParserInstruction.Begin, ParserInstruction.Skip n,
        ParserInstruction.EmitEnumeration enums] line =
        ParseOutcome.err ("Unknown enum " ++ String.mk (line.data.take n))) := by
  constructor
  · intro enums line n i hn hi hmin
    simp only [parse_line, parseGo]
    have hs : sliceOpt line.data 0 (0 + n) = some (line.data.take n) := by
      simp [sliceOpt, hn]
    simp only [hs]
    rw [position_eq_some_of_least hi hmin]
    simp
  · intro enums line n hn hne
    simp only [parse_line, parseGo]
    have hs : sliceOpt line.data 0 (0 + n) = some (line.data.take n) := by
      simp [sliceOpt, hn]
    simp only [hs]
    have hp : position (fun e => e == String.mk (line.data.take n)) enums = none := by
      apply position_eq_none
      intro x hx
      simpa using hne x hx
    rw [hp]

/-- Claim C5 (witness): least-index lookup and unknown-value failure at
concrete inputs. -/
theorem c5_enumeration_lookup_witness :
    parse_line [ParserInstruction.Begin, ParserInstruction.Skip 5,
      ParserInstruction.EmitEnumeration ["TRACE", "DEBUG"]] "DEBUG stuff" =
      ParseOutcome.ok [RowValue.Integer 1] ∧
    parse_line [ParserInstruction.Begin, ParserInstruction.Skip 5,
      ParserInstruction.EmitEnumeration ["TRACE", "DEBUG"]] "BOGUS stuff" =
      ParseOutcome.err ("Unknown enum " ++ String.mk (("BOGUS stuff" : String).data.take 5)) :=
  ⟨c5_enumeration_lookup.1 ["TRACE", "DEBUG"] "DEBUG stuff" 5 1
      (by decide) (by decide) (by decide),
   c5_enumeration_lookup.2 ["TRACE", "DEBUG"] "BOGUS stuff" 5
      (by decide) (by decide)⟩

end Logalyzer
